import Mathlib

/-!
Verification of the SYCL platform registry core
(`xla/stream_executor/sycl/sycl_platform.cc`).

The embedding models the platform's topology-discovery state machine and its
executor-cache dispatch.  Devices are represented by the list of their bus ids
(the `numa_node()` attribute of each device description, an `int` in the
source, hence `Int` here), indexed by device ordinal in ascending order —
exactly the order in which `InspectNumaNodes` enumerates them.
-/

namespace SyclModel

/-- Per-instance fields of `SyclPlatform`.  The constructor
`SyclPlatform::SyclPlatform` initializes `min_numa_node_` and
`limit_numa_node_` to `0`. -/
structure SyclPlatform where
  min_numa_node : Int
  limit_numa_node : Int
deriving DecidableEq

/-- The state produced by the constructor `SyclPlatform::SyclPlatform()`:
both numa fields zero. -/
def syclPlatformInit : SyclPlatform :=
  { min_numa_node := 0, limit_numa_node := 0 }

/-- Process-wide state: the function-local `static absl::once_flag once;`
inside `SyclPlatform::InspectNumaNodes`.  Being a function-local static it is
shared by every `SyclPlatform` instance in the process. -/
structure ProcessState where
  onceDone : Bool
deriving DecidableEq

/-- Initial process state: the once-flag has not fired. -/
def processInit : ProcessState := { onceDone := false }

/-- Body of the `else` branch of the loop in `InspectNumaNodes` (devices with
`i != 0`): `min_numa_node_ = std::min(min_numa_node_, numa_node(i))` and
`limit_numa_node_ = std::max(limit_numa_node_, numa_node(i) + 1)`. -/
def inspectFold (p : SyclPlatform) (b : Int) : SyclPlatform :=
  { min_numa_node := min p.min_numa_node b,
    limit_numa_node := max p.limit_numa_node (b + 1) }

/-- The loop of `InspectNumaNodes` when every `ExecutorForDevice(i)` call
succeeds: device 0 seeds `min = bus(0)`, `limit = bus(0) + 1`; each later
device folds with `min`/`max`.  An empty device list leaves the fields
untouched. -/
def inspectScan (busIds : List Int) (p : SyclPlatform) : SyclPlatform :=
  match busIds with
  | [] => p
  | b :: rest =>
      rest.foldl inspectFold
        { min_numa_node := b, limit_numa_node := b + 1 }

/-- `SyclPlatform::InspectNumaNodes`: `absl::call_once(once, ...)` runs the
scan only if the process-wide once-flag has not fired yet, and sets it. -/
def inspectNumaNodes (busIds : List Int) (st : ProcessState × SyclPlatform) :
    ProcessState × SyclPlatform :=
  if st.1.onceDone then st
  else ({ onceDone := true }, inspectScan busIds st.2)

/-- State and value of `SyclPlatform::BusCount()`: call `InspectNumaNodes`,
then return `limit_numa_node_ - min_numa_node_`. -/
def busCount (busIds : List Int) (st : ProcessState × SyclPlatform) :
    (ProcessState × SyclPlatform) × Int :=
  let st1 := inspectNumaNodes busIds st
  (st1, st1.2.limit_numa_node - st1.2.min_numa_node)

/-- `SyclPlatform::DeviceToBus(ordinal)`: dereference the executor for the
ordinal and return `numa_node(ordinal) - min_numa_node_`.  The function does
not call `InspectNumaNodes` and mutates no state; an out-of-range ordinal has
no device, modelled as `none`. -/
def deviceToBus (busIds : List Int) (p : SyclPlatform) (ordinal : Nat) :
    Option Int :=
  (busIds.get? ordinal).map (fun b => b - p.min_numa_node)

/-- Outcome of `SyclPlatform::FirstExecutorForBus`: the executor of a device
ordinal, a `NotFound` status, or a fatal `CHECK_LT` failure. -/
inductive BusResult where
  | ok (ordinal : Nat)
  | notFound (msg : String)
  | fatal (msg : String)
deriving DecidableEq

/-- The `for` loop of `FirstExecutorForBus`: the first ordinal (ascending)
whose `DeviceToBus` equals the requested bus. -/
def findBusIdx (minN bus : Int) : List Int → Option Nat
  | [] => none
  | b :: rest =>
      if b - minN = bus then some 0
      else (findBusIdx minN bus rest).map (fun j => j + 1)

/-- `SyclPlatform::FirstExecutorForBus(bus_ordinal)`: run `InspectNumaNodes`,
`CHECK_LT(bus_ordinal, BusCount())` (fatal when violated), then scan ordinals
in ascending order for the first device mapping to the bus; `NotFound` if
none does. -/
def firstExecutorForBus (busIds : List Int) (st : ProcessState × SyclPlatform)
    (bus : Int) : (ProcessState × SyclPlatform) × BusResult :=
  let st1 := inspectNumaNodes busIds st
  let bc := st1.2.limit_numa_node - st1.2.min_numa_node
  if bus < bc then
    match findBusIdx st1.2.min_numa_node bus busIds with
    | some i => (st1, BusResult.ok i)
    | none =>
        (st1, BusResult.notFound
          ("Executor for bus " ++ toString bus ++ " not found."))
  else
    (st1, BusResult.fatal "bus ordinal out of available range")

/-- The platform state after the very first `InspectNumaNodes` call of the
process, starting from a freshly constructed `SyclPlatform`. -/
def postScan (busIds : List Int) : ProcessState × SyclPlatform :=
  inspectNumaNodes busIds (processInit, syclPlatformInit)

/-!
Topology scan in the presence of describe failures.  In the source the loop
body is `StreamExecutor* exec = *ExecutorForDevice(i);` — the `StatusOr` is
dereferenced unchecked, so a device whose executor cannot be obtained makes
the dereference fail fatally (it never yields an executor and never lets the
loop continue past the failed device).  We model the driver view as one
`Except` per ordinal and a failing device as the error outcome escaping the
scan: the scan then produces no finalized field pair at all.
-/

/-- One fold step of the scan over fallible devices: an already-failed scan
stays failed, a failing device fails the scan, a succeeding device folds its
bus id as in `inspectFold`. -/
def inspectFoldE (acc : Except String SyclPlatform) (d : Except String Int) :
    Except String SyclPlatform :=
  match acc, d with
  | Except.error e, _ => Except.error e
  | Except.ok _, Except.error e => Except.error e
  | Except.ok p, Except.ok b => Except.ok (inspectFold p b)

/-- The scan body of `InspectNumaNodes` over a driver view in which
describing a device may fail (`ExecutorForDevice(i)` returns a non-ok
status).  Mirrors `inspectScan` on the all-ok view. -/
def inspectScanE (devs : List (Except String Int)) (p : SyclPlatform) :
    Except String SyclPlatform :=
  match devs with
  | [] => Except.ok p
  | d :: rest =>
      match d with
      | Except.error e => Except.error e
      | Except.ok b =>
          rest.foldl inspectFoldE
            (Except.ok { min_numa_node := b, limit_numa_node := b + 1 })

/-!
Executor cache and executor acquisition (`GetExecutor`,
`GetUncachedExecutor`, `ExecutorForDevice`).  `StreamExecutorConfig` and
`ExecutorCache` are upstream XLA types; the config carries
`{ordinal, device_options, gpu_stream}` as used by this file, and the cache
semantics follow the spec.  Executors are modelled by the ordinal binding
they are created with.
-/

/-- The fields of `StreamExecutorConfig` this file reads: the device ordinal,
the device options, and the optional caller-supplied `gpu_stream` handle. -/
structure StreamExecutorConfig where
  ordinal : Int
  device_options : Nat
  gpu_stream : Option Nat
deriving DecidableEq

/-- `DeviceOptions::Default()`, as used by `ExecutorForDevice`. -/
def defaultDeviceOptions : Nat := 0

/-- The config `ExecutorForDevice(ordinal)` builds: the ordinal, default
device options, and no caller-supplied stream. -/
def defaultConfig (ordinal : Int) : StreamExecutorConfig :=
  { ordinal := ordinal, device_options := defaultDeviceOptions,
    gpu_stream := none }

/-- Status outcomes relevant to executor acquisition. -/
inductive Status where
  | notFound (msg : String)
  | internal (msg : String)
deriving DecidableEq

/-- The executor cache content: config keys mapped to executors. -/
abbrev ExecutorCache : Type := List (StreamExecutorConfig × Int)

/-- Exact-key lookup in the cache. -/
def cacheLookup (cache : ExecutorCache) (config : StreamExecutorConfig) :
    Option Int :=
  match cache with
  | [] => none
  | (k, v) :: rest => if k = config then some v else cacheLookup rest config

/-- Modelled from the spec: `ExecutorCache::Get` looks up an existing entry
by exact key match and never creates; a miss is a `NotFound` status.  (The
cache class itself lives outside this repository.) -/
def cacheGet (cache : ExecutorCache) (config : StreamExecutorConfig) :
    Except Status Int :=
  match cacheLookup cache config with
  | some v => Except.ok v
  | none => Except.error (Status.notFound "No executors own the given stream.")

/-- Modelled from the spec: `ExecutorCache::GetOrCreate` returns the cached
entry if present; otherwise it runs the factory, stores the result on
success, and on failure propagates the error leaving the cache unchanged. -/
def cacheGetOrCreate (cache : ExecutorCache) (config : StreamExecutorConfig)
    (factory : Unit → Except Status Int) : ExecutorCache × Except Status Int :=
  match cacheLookup cache config with
  | some v => (cache, Except.ok v)
  | none =>
      match factory () with
      | Except.ok v => ((config, v) :: cache, Except.ok v)
      | Except.error e => (cache, Except.error e)

/-- `SyclPlatform::GetUncachedExecutor`: build a `StreamExecutor` for the
config's ordinal and `Init` it with the config's device options; a failing
`Init` becomes an `Internal` status naming the ordinal and the underlying
error text.  `initResult` is the driver model: what `executor->Init` returns
for a given ordinal and options. -/
def getUncachedExecutor (initResult : Int → Nat → Except String Unit)
    (config : StreamExecutorConfig) : Except Status Int :=
  match initResult config.ordinal config.device_options with
  | Except.ok _ => Except.ok config.ordinal
  | Except.error e =>
      Except.error (Status.internal
        ("failed initializing StreamExecutor for CUDA device ordinal "
          ++ toString config.ordinal ++ ": " ++ e))

/-- `SyclPlatform::GetExecutor`: a config carrying a caller-supplied
`gpu_stream` routes to `Get` only; otherwise `GetOrCreate` runs with
`GetUncachedExecutor` as the factory. -/
def getExecutor (initResult : Int → Nat → Except String Unit)
    (cache : ExecutorCache) (config : StreamExecutorConfig) :
    ExecutorCache × Except Status Int :=
  match config.gpu_stream with
  | some _ => (cache, cacheGet cache config)
  | none =>
      cacheGetOrCreate cache config
        (fun _ => getUncachedExecutor initResult config)

/-- `SyclPlatform::ExecutorForDevice(ordinal)`: `GetExecutor` on the default
config for the ordinal. -/
def executorForDevice (initResult : Int → Nat → Except String Unit)
    (cache : ExecutorCache) (ordinal : Int) :
    ExecutorCache × Except Status Int :=
  getExecutor initResult cache (defaultConfig ordinal)

/-! Helper lemmas about the scan fold. -/

theorem foldl_inspectFold_min (rest : List Int) (p : SyclPlatform) :
    (rest.foldl inspectFold p).min_numa_node
      = rest.foldl min p.min_numa_node := by
  induction rest generalizing p with
  | nil => rfl
  | cons b t ih =>
      simpa [inspectFold] using ih (inspectFold p b)

theorem foldl_inspectFold_limit (rest : List Int) (p : SyclPlatform) :
    (rest.foldl inspectFold p).limit_numa_node
      = rest.foldl (fun a x => max a (x + 1)) p.limit_numa_node := by
  induction rest generalizing p with
  | nil => rfl
  | cons b t ih =>
      simpa [inspectFold] using ih (inspectFold p b)

theorem foldl_min_le_init (l : List Int) (a : Int) : l.foldl min a ≤ a := by
  induction l generalizing a with
  | nil => exact le_refl a
  | cons b t ih => exact le_trans (ih (min a b)) (min_le_left a b)

theorem foldl_min_le_mem (l : List Int) (a x : Int) :
    x ∈ l → l.foldl min a ≤ x := by
  induction l generalizing a with
  | nil => intro hx; cases hx
  | cons b t ih =>
      intro hx
      rcases List.mem_cons.mp hx with h | h
      · subst h
        exact le_trans (foldl_min_le_init t (min a x)) (min_le_right a x)
      · exact ih (min a b) h

theorem foldl_min_mem (l : List Int) (a : Int) :
    l.foldl min a = a ∨ l.foldl min a ∈ l := by
  induction l generalizing a with
  | nil => exact Or.inl rfl
  | cons b t ih =>
      rcases ih (min a b) with h | h
      · rcases min_choice a b with hab | hab
        · exact Or.inl (by rw [List.foldl_cons, h, hab])
        · refine Or.inr ?_
          rw [List.foldl_cons, h, hab]
          exact List.mem_cons_self b t
      · exact Or.inr (List.mem_cons_of_mem b h)

theorem foldl_max_ge_init (l : List Int) (a : Int) : a ≤ l.foldl max a := by
  induction l generalizing a with
  | nil => exact le_refl a
  | cons b t ih => exact le_trans (le_max_left a b) (ih (max a b))

theorem foldl_max_ge_mem (l : List Int) (a x : Int) :
    x ∈ l → x ≤ l.foldl max a := by
  induction l generalizing a with
  | nil => intro hx; cases hx
  | cons b t ih =>
      intro hx
      rcases List.mem_cons.mp hx with h | h
      · subst h
        exact le_trans (le_max_right a x) (foldl_max_ge_init t (max a x))
      · exact ih (max a b) h

theorem foldl_max_mem (l : List Int) (a : Int) :
    l.foldl max a = a ∨ l.foldl max a ∈ l := by
  induction l generalizing a with
  | nil => exact Or.inl rfl
  | cons b t ih =>
      rcases ih (max a b) with h | h
      · rcases max_choice a b with hab | hab
        · exact Or.inl (by rw [List.foldl_cons, h, hab])
        · refine Or.inr ?_
          rw [List.foldl_cons, h, hab]
          exact List.mem_cons_self b t
      · exact Or.inr (List.mem_cons_of_mem b h)

theorem foldl_maxsucc (l : List Int) (a : Int) :
    l.foldl (fun acc x => max acc (x + 1)) (a + 1) = l.foldl max a + 1 := by
  induction l generalizing a with
  | nil => rfl
  | cons b t ih =>
      have hmax : max (a + 1) (b + 1) = max a b + 1 := max_add_add_right a b 1
      simp only [List.foldl_cons]
      rw [show max (a + 1) (b + 1) = max a b + 1 from hmax] at *
      simpa [hmax] using ih (max a b)

theorem inspectScan_cons_min (b : Int) (rest : List Int) (p : SyclPlatform) :
    (inspectScan (b :: rest) p).min_numa_node = rest.foldl min b := by
  show (rest.foldl inspectFold
    { min_numa_node := b, limit_numa_node := b + 1 }).min_numa_node = _
  rw [foldl_inspectFold_min]

theorem inspectScan_cons_limit (b : Int) (rest : List Int) (p : SyclPlatform) :
    (inspectScan (b :: rest) p).limit_numa_node = rest.foldl max b + 1 := by
  show (rest.foldl inspectFold
    { min_numa_node := b, limit_numa_node := b + 1 }).limit_numa_node = _
  rw [foldl_inspectFold_limit]
  exact foldl_maxsucc rest b

theorem postScan_eq (busIds : List Int) :
    postScan busIds
      = ({ onceDone := true }, inspectScan busIds syclPlatformInit) := rfl

theorem busCount_init_val (busIds : List Int) :
    (busCount busIds (processInit, syclPlatformInit)).2
      = (postScan busIds).2.limit_numa_node
        - (postScan busIds).2.min_numa_node := rfl

/-- C1: after the topology scan from a fresh platform, an empty device
population leaves `min_numa_node`/`limit_numa_node` at their constructor
default of zero and `BusCount()` returns 0; a nonempty population yields
`min_numa_node` equal to the minimum bus id, `limit_numa_node` equal to the
maximum bus id plus one, and `BusCount()` equal to max - min + 1. -/
theorem inspect_busCount_topology (busIds : List Int) :
    (busIds = [] →
        postScan busIds = ({ onceDone := true }, syclPlatformInit)
      ∧ (busCount busIds (processInit, syclPlatformInit)).2 = 0)
  ∧ (busIds ≠ [] →
      ∃ mn mx : Int,
        mn ∈ busIds ∧ (∀ x ∈ busIds, mn ≤ x)
      ∧ mx ∈ busIds ∧ (∀ x ∈ busIds, x ≤ mx)
      ∧ (postScan busIds).2.min_numa_node = mn
      ∧ (postScan busIds).2.limit_numa_node = mx + 1
      ∧ (busCount busIds (processInit, syclPlatformInit)).2 = mx - mn + 1) := by
  constructor
  · rintro rfl
    exact ⟨rfl, by decide⟩
  · intro h
    rcases busIds with _ | ⟨b, rest⟩
    · exact absurd rfl h
    · refine ⟨rest.foldl min b, rest.foldl max b, ?_, ?_, ?_, ?_, ?_, ?_, ?_⟩
      · rcases foldl_min_mem rest b with h1 | h1
        · rw [h1]; exact List.mem_cons_self b rest
        · exact List.mem_cons_of_mem b h1
      · intro x hx
        rcases List.mem_cons.mp hx with h2 | h2
        · subst h2; exact foldl_min_le_init rest x
        · exact foldl_min_le_mem rest b x h2
      · rcases foldl_max_mem rest b with h1 | h1
        · rw [h1]; exact List.mem_cons_self b rest
        · exact List.mem_cons_of_mem b h1
      · intro x hx
        rcases List.mem_cons.mp hx with h2 | h2
        · subst h2; exact foldl_max_ge_init rest x
        · exact foldl_max_ge_mem rest b x h2
      · rw [postScan_eq]; exact inspectScan_cons_min b rest syclPlatformInit
      · rw [postScan_eq]; exact inspectScan_cons_limit b rest syclPlatformInit
      · rw [busCount_init_val, postScan_eq]
        show (inspectScan (b :: rest) syclPlatformInit).limit_numa_node
            - (inspectScan (b :: rest) syclPlatformInit).min_numa_node = _
        rw [inspectScan_cons_limit b rest syclPlatformInit,
          inspectScan_cons_min b rest syclPlatformInit]
        omega

theorem seedMin_mem (b : Int) (rest : List Int) :
    rest.foldl min b ∈ b :: rest := by
  rcases foldl_min_mem rest b with h1 | h1
  · rw [h1]; exact List.mem_cons_self b rest
  · exact List.mem_cons_of_mem b h1

theorem seedMin_le (b : Int) (rest : List Int) :
    ∀ x ∈ b :: rest, rest.foldl min b ≤ x := by
  intro x hx
  rcases List.mem_cons.mp hx with h2 | h2
  · subst h2; exact foldl_min_le_init rest x
  · exact foldl_min_le_mem rest b x h2

theorem postScan_cons_min (b : Int) (rest : List Int) :
    (postScan (b :: rest)).2.min_numa_node = rest.foldl min b := by
  rw [postScan_eq]; exact inspectScan_cons_min b rest syclPlatformInit

/-- C2: after topology discovery, `DeviceToBus(i)` returns the device's bus
id minus the minimum bus id over all visible devices. -/
theorem deviceToBus_after_scan (busIds : List Int) (i : Nat) (b : Int)
    (hb : busIds.get? i = some b) :
    ∃ mn : Int, mn ∈ busIds ∧ (∀ x ∈ busIds, mn ≤ x)
      ∧ deviceToBus busIds (postScan busIds).2 i = some (b - mn) := by
  rcases busIds with _ | ⟨c, rest⟩
  · simp [List.get?] at hb
  · refine ⟨rest.foldl min c, seedMin_mem c rest, seedMin_le c rest, ?_⟩
    rw [List.get?_eq_getElem?] at hb
    simp [deviceToBus, hb, postScan_cons_min c rest]

/-- Witness for C2: device ordinal 0 of the population `[2, 0, 0]`. -/
theorem deviceToBus_after_scan_witness :
    ∃ mn : Int, mn ∈ ([2, 0, 0] : List Int)
      ∧ (∀ x ∈ ([2, 0, 0] : List Int), mn ≤ x)
      ∧ deviceToBus [2, 0, 0] (postScan [2, 0, 0]).2 0 = some (2 - mn) :=
  deviceToBus_after_scan [2, 0, 0] 0 2 (by decide)

theorem postScan_def (busIds : List Int) :
    inspectNumaNodes busIds (processInit, syclPlatformInit)
      = postScan busIds := rfl

theorem findBusIdx_some_spec (minN bus : Int) (l : List Int) (j : Nat)
    (h : findBusIdx minN bus l = some j) :
    ∃ bj, l.get? j = some bj ∧ bj - minN = bus
      ∧ ∀ k bk, k < j → l.get? k = some bk → bk - minN ≠ bus := by
  induction l generalizing j with
  | nil => simp [findBusIdx] at h
  | cons b t ih =>
      simp only [findBusIdx] at h
      split at h
      case isTrue hb =>
        cases h
        refine ⟨b, rfl, hb, ?_⟩
        intro k bk hk _
        exact absurd hk (Nat.not_lt_zero k)
      case isFalse hb =>
        rcases Option.map_eq_some'.mp h with ⟨j0, hj0, hj⟩
        subst hj
        rcases ih j0 hj0 with ⟨bj, hget, hbus, hmin⟩
        refine ⟨bj, by simpa using hget, hbus, ?_⟩
        intro k bk hk hgetk
        cases k with
        | zero =>
            have hbk : bk = b := by simpa using hgetk.symm
            subst hbk
            exact hb
        | succ k0 =>
            exact hmin k0 bk (Nat.lt_of_succ_lt_succ hk) (by simpa using hgetk)

theorem findBusIdx_none_spec (minN bus : Int) (l : List Int)
    (h : findBusIdx minN bus l = none) :
    ∀ k bk, l.get? k = some bk → bk - minN ≠ bus := by
  induction l with
  | nil =>
      intro k bk hget
      simp [List.get?] at hget
  | cons b t ih =>
      simp only [findBusIdx] at h
      split at h
      case isTrue hb => cases h
      case isFalse hb =>
        have ht : findBusIdx minN bus t = none := by
          rcases hmap : findBusIdx minN bus t with _ | j0
          · rfl
          · rw [hmap] at h; cases h
        intro k bk hget
        cases k with
        | zero =>
            have hbk : bk = b := by simpa using hget.symm
            subst hbk
            exact hb
        | succ k0 =>
            exact ih ht k0 bk (by simpa using hget)

/-- C3: for a bus ordinal in `[0, BusCount())`, `FirstExecutorForBus` returns
the executor of the smallest device ordinal mapping to that bus when one
exists and a `NotFound` status when none does; for 3 devices with bus ids
`[2, 0, 0]`, `FirstExecutorForBus(0)` returns the executor for ordinal 1. -/
theorem firstExecutorForBus_spec (busIds : List Int) (bus : Int)
    (_h0 : 0 ≤ bus)
    (h1 : bus < (busCount busIds (processInit, syclPlatformInit)).2) :
    ((∃ i, deviceToBus busIds (postScan busIds).2 i = some bus) →
       ∃ j, firstExecutorForBus busIds (processInit, syclPlatformInit) bus
              = (postScan busIds, BusResult.ok j)
         ∧ deviceToBus busIds (postScan busIds).2 j = some bus
         ∧ ∀ k, k < j → deviceToBus busIds (postScan busIds).2 k ≠ some bus)
  ∧ ((∀ i, deviceToBus busIds (postScan busIds).2 i ≠ some bus) →
       ∃ m, firstExecutorForBus busIds (processInit, syclPlatformInit) bus
              = (postScan busIds, BusResult.notFound m))
  ∧ firstExecutorForBus [2, 0, 0] (processInit, syclPlatformInit) 0
      = (postScan [2, 0, 0], BusResult.ok 1) := by
  rw [busCount_init_val] at h1
  have hred : firstExecutorForBus busIds (processInit, syclPlatformInit) bus
      = (match findBusIdx (postScan busIds).2.min_numa_node bus busIds with
         | some i => (postScan busIds, BusResult.ok i)
         | none =>
             (postScan busIds, BusResult.notFound
               ("Executor for bus " ++ toString bus ++ " not found."))) := by
    simp only [firstExecutorForBus, postScan_def]
    rw [if_pos h1]
  refine ⟨?_, ?_, by decide⟩
  · rintro ⟨i, hi⟩
    simp only [deviceToBus] at hi
    rcases Option.map_eq_some'.mp hi with ⟨b, hget, hb⟩
    rcases hfind : findBusIdx (postScan busIds).2.min_numa_node bus busIds
      with _ | j
    · exact absurd hb
        (findBusIdx_none_spec (postScan busIds).2.min_numa_node bus busIds
          hfind i b (by simpa using hget))
    · rcases findBusIdx_some_spec (postScan busIds).2.min_numa_node bus busIds
        j hfind with ⟨bj, hgetj, hbj, hminimal⟩
      refine ⟨j, by rw [hred, hfind], ?_, ?_⟩
      · rw [List.get?_eq_getElem?] at hgetj
        simp [deviceToBus, hgetj, hbj]
      · intro k hk hcontra
        simp only [deviceToBus] at hcontra
        rcases Option.map_eq_some'.mp hcontra with ⟨bk, hgetk, hbk⟩
        exact hminimal k bk hk (by simpa using hgetk) hbk
  · intro hall
    rcases hfind : findBusIdx (postScan busIds).2.min_numa_node bus busIds
      with _ | j
    · exact ⟨_, by rw [hred, hfind]⟩
    · rcases findBusIdx_some_spec (postScan busIds).2.min_numa_node bus busIds
        j hfind with ⟨bj, hgetj, hbj, _⟩
      refine absurd ?_ (hall j)
      rw [List.get?_eq_getElem?] at hgetj
      simp [deviceToBus, hgetj, hbj]

/-- Witness for C3: bus 0 of the population `[2, 0, 0]` resolves to device
ordinal 1, the smallest ordinal mapping to bus 0. -/
theorem firstExecutorForBus_spec_witness :
    ∃ j, firstExecutorForBus [2, 0, 0] (processInit, syclPlatformInit) 0
           = (postScan [2, 0, 0], BusResult.ok j)
      ∧ deviceToBus [2, 0, 0] (postScan [2, 0, 0]).2 j = some 0
      ∧ ∀ k, k < j → deviceToBus [2, 0, 0] (postScan [2, 0, 0]).2 k ≠ some 0 :=
  (firstExecutorForBus_spec [2, 0, 0] 0 (by decide) (by decide)).1
    ⟨1, by decide⟩

/-- C4: a bus ordinal at or beyond `BusCount()` makes `FirstExecutorForBus`
fail the `CHECK_LT` fatally; it never returns a normal or recoverable
status. -/
theorem firstExecutorForBus_fatal (busIds : List Int) (bus : Int)
    (h : (busCount busIds (processInit, syclPlatformInit)).2 ≤ bus) :
    firstExecutorForBus busIds (processInit, syclPlatformInit) bus
      = (postScan busIds,
          BusResult.fatal "bus ordinal out of available range") := by
  rw [busCount_init_val] at h
  simp only [firstExecutorForBus, postScan_def]
  rw [if_neg (not_lt.mpr h)]

/-- Witness for C4: `FirstExecutorForBus(3)` on the population `[2, 0, 0]`
(whose `BusCount()` is 3) is fatal. -/
theorem firstExecutorForBus_fatal_witness :
    firstExecutorForBus [2, 0, 0] (processInit, syclPlatformInit) 3
      = (postScan [2, 0, 0],
          BusResult.fatal "bus ordinal out of available range") :=
  firstExecutorForBus_fatal [2, 0, 0] 3 (by decide)

/-- Witness for C1 at the nonempty device population `[2, 0, 0]`. -/
theorem inspect_busCount_topology_witness :
    (([2, 0, 0] : List Int) ≠ [])
  ∧ ∃ mn mx : Int,
      mn ∈ ([2, 0, 0] : List Int) ∧ (∀ x ∈ ([2, 0, 0] : List Int), mn ≤ x)
    ∧ mx ∈ ([2, 0, 0] : List Int) ∧ (∀ x ∈ ([2, 0, 0] : List Int), x ≤ mx)
    ∧ (postScan [2, 0, 0]).2.min_numa_node = mn
    ∧ (postScan [2, 0, 0]).2.limit_numa_node = mx + 1
    ∧ (busCount [2, 0, 0] (processInit, syclPlatformInit)).2 = mx - mn + 1 :=
  ⟨by decide, (inspect_busCount_topology [2, 0, 0]).2 (by decide)⟩

theorem foldl_inspectFoldE_error (l : List (Except String Int)) (e : String) :
    l.foldl inspectFoldE (Except.error e) = Except.error e := by
  induction l with
  | nil => rfl
  | cons d t ih => simpa [inspectFoldE] using ih

theorem foldl_inspectFoldE_mem_error (l : List (Except String Int))
    (e : String) (he : Except.error e ∈ l) (p : SyclPlatform) :
    ∃ msg, l.foldl inspectFoldE (Except.ok p) = Except.error msg := by
  induction l generalizing p with
  | nil => cases he
  | cons d t ih =>
      rcases List.mem_cons.mp he with h | h
      · subst h
        exact ⟨e, by simp [inspectFoldE, foldl_inspectFoldE_error]⟩
      · rcases d with e0 | b
        · exact ⟨e0, by simp [inspectFoldE, foldl_inspectFoldE_error]⟩
        · simpa [inspectFoldE] using ih h (inspectFold p b)

/-- C7: a device population in which some device fails to describe never
finalizes a `{min, limit}` pair: the failure escapes the scan (the unchecked
`StatusOr` dereference in the loop is fatal on a non-ok status), rather than
the failed device being silently skipped. -/
theorem inspectScanE_no_skip (devs : List (Except String Int))
    (p : SyclPlatform) (h : ∃ e, Except.error e ∈ devs) :
    (∃ msg, inspectScanE devs p = Except.error msg)
  ∧ ∀ q, inspectScanE devs p ≠ Except.ok q := by
  have hmain : ∃ msg, inspectScanE devs p = Except.error msg := by
    rcases h with ⟨e, he⟩
    rcases devs with _ | ⟨d, rest⟩
    · cases he
    · rcases d with e0 | b
      · exact ⟨e0, rfl⟩
      · rcases List.mem_cons.mp he with h1 | h1
        · cases h1
        · simpa [inspectScanE] using
            foldl_inspectFoldE_mem_error rest e h1
              { min_numa_node := b, limit_numa_node := b + 1 }
  refine ⟨hmain, ?_⟩
  rcases hmain with ⟨msg, hmsg⟩
  intro q hq
  rw [hmsg] at hq
  cases hq

/-- Witness for C7: device 1 of the population fails to describe. -/
theorem inspectScanE_no_skip_witness :
    (∃ msg, inspectScanE [Except.ok 2, Except.error "device busy"]
        syclPlatformInit = Except.error msg)
  ∧ ∀ q, inspectScanE [Except.ok 2, Except.error "device busy"]
        syclPlatformInit ≠ Except.ok q :=
  inspectScanE_no_skip [Except.ok 2, Except.error "device busy"]
    syclPlatformInit ⟨"device busy", by simp⟩

theorem firstExecutorForBus_state (busIds : List Int)
    (st : ProcessState × SyclPlatform) (bus : Int) :
    (firstExecutorForBus busIds st bus).1 = inspectNumaNodes busIds st := by
  simp only [firstExecutorForBus]
  split
  · split <;> rfl
  · rfl

/-- C8: `InspectNumaNodes` is write-once: one call is a fixed point of the
once-flag step, any number of further calls leaves the state unchanged,
`BusCount` performs no further state change after the first completed call,
and `DeviceToBus` reads the pair without mutating any state. -/
theorem inspectNumaNodes_idempotent (busIds : List Int)
    (st : ProcessState × SyclPlatform) :
    inspectNumaNodes busIds (inspectNumaNodes busIds st)
      = inspectNumaNodes busIds st
  ∧ (∀ k : Nat, (fun s => inspectNumaNodes busIds s)^[k]
        (inspectNumaNodes busIds st) = inspectNumaNodes busIds st)
  ∧ (busCount busIds (inspectNumaNodes busIds st)).1
      = inspectNumaNodes busIds st
  ∧ (firstExecutorForBus busIds (inspectNumaNodes busIds st)
        ((busCount busIds (inspectNumaNodes busIds st)).2)).1
      = inspectNumaNodes busIds st := by
  have honce : (inspectNumaNodes busIds st).1.onceDone = true := by
    unfold inspectNumaNodes
    rcases hflag : st.1.onceDone with _ | _
    · simp [hflag]
    · simp [hflag]
  have hstep : ∀ st2 : ProcessState × SyclPlatform, st2.1.onceDone = true →
      inspectNumaNodes busIds st2 = st2 := by
    intro st2 h2
    unfold inspectNumaNodes
    rw [if_pos h2]
  have hfix := hstep _ honce
  refine ⟨hfix, ?_, ?_, ?_⟩
  · intro k
    induction k with
    | zero => rfl
    | succ n ih =>
        rw [Function.iterate_succ_apply, hfix]
        exact ih
  · show (inspectNumaNodes busIds (inspectNumaNodes busIds st))
        = inspectNumaNodes busIds st
    exact hfix
  · rw [firstExecutorForBus_state]
    exact hfix

/-- C9: the once-flag is a function-local static shared across all
`SyclPlatform` instances.  The first instance's scan fires it; a second
instance constructed afterwards (its constructor resets its own fields to
zero) performs no scan when calling `InspectNumaNodes`, keeps
`min_numa_node_ = limit_numa_node_ = 0`, and its `BusCount()` is 0 for every
visible device population. -/
theorem second_instance_no_scan (busIds : List Int) :
    (inspectNumaNodes busIds (processInit, syclPlatformInit)).1
      = { onceDone := true }
  ∧ inspectNumaNodes busIds ({ onceDone := true }, syclPlatformInit)
      = ({ onceDone := true }, syclPlatformInit)
  ∧ (busCount busIds ({ onceDone := true }, syclPlatformInit)).2 = 0 := by
  refine ⟨rfl, rfl, ?_⟩
  show syclPlatformInit.limit_numa_node - syclPlatformInit.min_numa_node = 0
  decide

/-- C5: `GetExecutor` dispatches on the caller-supplied stream handle: with a
stream present the cache is only queried (`Get`), never grown, and a miss is
a `NotFound` error; without a stream it runs `GetOrCreate` with the
`GetUncachedExecutor` factory, which on a miss builds and caches a new
executor. -/
theorem getExecutor_dispatch (initResult : Int → Nat → Except String Unit)
    (cache : ExecutorCache) (config : StreamExecutorConfig) :
    (config.gpu_stream.isSome = true →
        getExecutor initResult cache config = (cache, cacheGet cache config)
      ∧ (cacheLookup cache config = none →
          ∃ m, getExecutor initResult cache config
            = (cache, Except.error (Status.notFound m))))
  ∧ (config.gpu_stream = none →
        getExecutor initResult cache config
          = cacheGetOrCreate cache config
              (fun _ => getUncachedExecutor initResult config)
      ∧ (∀ v, cacheLookup cache config = none →
          getUncachedExecutor initResult config = Except.ok v →
          getExecutor initResult cache config
            = ((config, v) :: cache, Except.ok v))) := by
  constructor
  · intro hs
    rcases h : config.gpu_stream with _ | s
    · rw [h] at hs; cases hs
    · refine ⟨by simp [getExecutor, h], ?_⟩
      intro hmiss
      exact ⟨"No executors own the given stream.",
        by simp [getExecutor, h, cacheGet, hmiss]⟩
  · intro hn
    refine ⟨by simp [getExecutor, hn], ?_⟩
    intro v hmiss hok
    simp [getExecutor, hn, cacheGetOrCreate, hmiss, hok]

/-- Witness for C5: a config carrying stream handle 7, looked up in an empty
cache, is a `Get`-only miss: `NotFound` and no creation. -/
theorem getExecutor_dispatch_witness :
    ∃ m, getExecutor (fun _ _ => Except.ok ()) ([] : ExecutorCache)
        { ordinal := 0, device_options := 0, gpu_stream := some 7 }
      = (([] : ExecutorCache), Except.error (Status.notFound m)) :=
  ((getExecutor_dispatch (fun _ _ => Except.ok ()) ([] : ExecutorCache)
      { ordinal := 0, device_options := 0, gpu_stream := some 7 }).1
    rfl).2 rfl

/-- C6: a failing executor `Init` yields an `Internal` status whose message
carries the device ordinal and the underlying driver error text, and the
failure propagates unchanged — no retry, no cache insertion — through
`GetUncachedExecutor`, `GetOrCreate`/`GetExecutor`, and
`ExecutorForDevice`. -/
theorem executor_init_failure_propagates
    (initResult : Int → Nat → Except String Unit)
    (cache : ExecutorCache) (ordinal : Int) (e : String)
    (hinit : initResult ordinal defaultDeviceOptions = Except.error e)
    (hmiss : cacheLookup cache (defaultConfig ordinal) = none) :
    getUncachedExecutor initResult (defaultConfig ordinal)
      = Except.error (Status.internal
          ("failed initializing StreamExecutor for CUDA device ordinal "
            ++ toString ordinal ++ ": " ++ e))
  ∧ getExecutor initResult cache (defaultConfig ordinal)
      = (cache, Except.error (Status.internal
          ("failed initializing StreamExecutor for CUDA device ordinal "
            ++ toString ordinal ++ ": " ++ e)))
  ∧ executorForDevice initResult cache ordinal
      = (cache, Except.error (Status.internal
          ("failed initializing StreamExecutor for CUDA device ordinal "
            ++ toString ordinal ++ ": " ++ e))) := by
  have h1 : getUncachedExecutor initResult (defaultConfig ordinal)
      = Except.error (Status.internal
          ("failed initializing StreamExecutor for CUDA device ordinal "
            ++ toString ordinal ++ ": " ++ e)) := by
    simp [getUncachedExecutor, defaultConfig, hinit]
  have h2 : getExecutor initResult cache (defaultConfig ordinal)
      = (cache, Except.error (Status.internal
          ("failed initializing StreamExecutor for CUDA device ordinal "
            ++ toString ordinal ++ ": " ++ e))) := by
    simp [getExecutor, cacheGetOrCreate, hmiss, h1,
      show (defaultConfig ordinal).gpu_stream = none from rfl]
  exact ⟨h1, h2, by
    show getExecutor initResult cache (defaultConfig ordinal) = _
    exact h2⟩

/-- Witness for C6: the driver rejects device ordinal 3 with the text
`driver failure`; all three acquisition paths surface the `Internal`
status. -/
theorem executor_init_failure_propagates_witness :
    getUncachedExecutor (fun _ _ => Except.error "driver failure")
        (defaultConfig 3)
      = Except.error (Status.internal
          ("failed initializing StreamExecutor for CUDA device ordinal "
            ++ toString (3 : Int) ++ ": " ++ "driver failure"))
  ∧ getExecutor (fun _ _ => Except.error "driver failure")
        ([] : ExecutorCache) (defaultConfig 3)
      = (([] : ExecutorCache), Except.error (Status.internal
          ("failed initializing StreamExecutor for CUDA device ordinal "
            ++ toString (3 : Int) ++ ": " ++ "driver failure")))
  ∧ executorForDevice (fun _ _ => Except.error "driver failure")
        ([] : ExecutorCache) 3
      = (([] : ExecutorCache), Except.error (Status.internal
          ("failed initializing StreamExecutor for CUDA device ordinal "
            ++ toString (3 : Int) ++ ": " ++ "driver failure"))) :=
  executor_init_failure_propagates (fun _ _ => Except.error "driver failure")
    ([] : ExecutorCache) 3 "driver failure" rfl rfl

end SyclModel
